import Mathlib

/-
Verification of the `ObservableOperation` state machine from
`src/core/ObservableOperation.ts` of calebmer/apollo-client.

The class is embedded shallowly: objects compared by reference in the source
(variables objects, data objects, state objects) become identity tokens, the
mutable fields of an `ObservableOperation` instance become a record, and each
method or executor-subscription handler becomes a function from records to
records returning `Except` to expose synchronously thrown errors.  The graph
store (`ReduxGraphStore`) is not part of the sources under review, so its
snapshot is abstracted to a token that changes exactly when `write` is called,
as the spec prescribes.  The deferred `setTimeout` delivery discipline of
`_updateState`, `_onSubscribe` and `_error` is modelled separately by an
explicit FIFO queue of pending callbacks.
-/

namespace ApolloClient

/-- GraphQL operation kinds, the possible values of
`OperationDefinitionNode.operation` consulted by the constructor. -/
inductive OperationKind where
  | query
  | mutation
  | subscription
deriving DecidableEq

/-- Variables objects are modelled by identity tokens: `ObservableOperation`
compares variables objects only by reference (`variables !== this._state.variables`)
and otherwise passes them around opaquely. -/
abbrev Variables := Nat

/-- GraphQL data objects are modelled by identity tokens, since the source
compares data objects by reference (`result.data === initialData`) and
otherwise treats them opaquely. -/
abbrev DataId := Nat

/-- GraphQL errors are opaque to `ObservableOperation`; only the emptiness of
an errors array is inspected (`result.errors.length === 0`). -/
abbrev GraphQLError := Nat

/-- The `OperationState` record of `src/core/ObservableOperation.ts`. -/
structure OperationState where
  loading : Bool
  executing : Bool
  vars : Variables
  canonical : Bool
  stale : Bool
  errors : List GraphQLError
  data : Option DataId
deriving DecidableEq

/-- The data captured by the graph watcher started in `_watch`: the
closed-over `variables` and the `initialData` read from the state when the
watch was started. -/
structure Watcher where
  vars : Variables
  initialData : Option DataId
deriving DecidableEq

/-- The fields of an `ObservableOperation` instance that the state machine
touches, together with an abstract token for the shared graph snapshot.
`execution` holds the variables closed over by the executor subscription when
one is present (`_execution` in the source); `watcher` is `_watcher`; `state`
is `_state`.  The `graph` component counts the writes performed through this
operation: the spec's graph store produces a fresh snapshot on each `write`,
so a changed token means a write happened and an unchanged token means the
snapshot is untouched. -/
structure ObsOp where
  rootID : Option OperationKind
  graph : Nat
  execution : Option Variables
  watcher : Option Watcher
  state : OperationState
deriving DecidableEq

/-- Modelled from the spec: `ReduxGraphStore.write` (the graph store is not
under `src/`) runs an atomic transaction producing a new snapshot and returns
the write-back projection of the written data, a fresh reference-stable
object.  Snapshots and projections are abstracted to tokens: a write yields a
new snapshot token and a projection token. -/
def graphWrite (g : Nat) (_raw : DataId) : Nat × DataId := (g + 1, g + 1)

/-- The synchronous failures `ObservableOperation` can raise, plus a marker
for events that cannot be delivered in a given configuration (no executor
subscription or no watcher exists to receive them). -/
inductive OpError where
  | executionRunning
  | watchConflict
  | variablesChanged
  | rethrown (isPartialRead : Bool)
  | notApplicable
deriving DecidableEq

/-- The private `_watch` method: a no-op when `_rootID` is null, an internal
invariant violation when a watcher already exists, and otherwise registers a
graph watcher closing over the current `variables` and taking the current
`data` as `initialData`. -/
def watchF (op : ObsOp) : Except OpError ObsOp :=
  match op.rootID with
  | none => .ok op
  | some _ =>
    match op.watcher with
    | some _ => .error .watchConflict
    | none =>
      .ok { op with watcher := some { vars := op.state.vars, initialData := op.state.data } }

/-- The private `_stopWatching` method: unsubscribe the watcher if one exists
and clear the handle. -/
def stopWatchingF (op : ObsOp) : ObsOp := { op with watcher := none }

/-- The initial `OperationState` installed by the constructor. -/
def initialState (initialVariables : Variables) : OperationState :=
  { loading := false
    executing := false
    vars := initialVariables
    canonical := false
    stale := false
    errors := []
    data := none }

/-- The `ObservableOperation` constructor: initialize the fields, compute
`_rootID` (null exactly for mutations), and immediately start watching the
graph as a side effect.  Note that this source never throws here, not even
for mutations. -/
def construct (kind : OperationKind) (initialVariables : Variables) : Except OpError ObsOp :=
  watchF
    { rootID := if kind = .mutation then none else some kind
      graph := 0
      execution := none
      watcher := none
      state := initialState initialVariables }

/-- The public `execute` method up to subscribing the executor observable; the
executor's emissions arrive later as separate events.  A `none` argument
models a call without arguments, which defaults to the current state's
variables object. -/
def executeF (op : ObsOp) (v : Option Variables) : Except OpError ObsOp :=
  if op.execution.isSome then .error .executionRunning
  else
    let vars := v.getD op.state.vars
    .ok { op with
          state := { op.state with loading := true, executing := true }
          execution := some vars }

/-- The `next` handler of the executor subscription created in `execute`.
The closed-over `variables` of the `execute` call are held in `op.execution`.
The handler first stops the watch; on an error-free result it writes to the
graph, updates the state with the projection, and restarts the watch; on a
result with errors it only updates the state. -/
def handleExecNext (op : ObsOp) (errs : List GraphQLError) (raw : DataId) : Except OpError ObsOp :=
  match op.execution with
  | none => .error .notApplicable
  | some vars =>
    let op1 := stopWatchingF op
    if errs = [] then
      let gd := graphWrite op1.graph raw
      watchF { op1 with
               graph := gd.1
               state := { op1.state with
                          loading := false
                          vars := vars
                          canonical := true
                          stale := false
                          errors := errs
                          data := some gd.2 } }
    else
      .ok { op1 with
            state := { op1.state with
                       loading := false
                       vars := vars
                       canonical := true
                       stale := false
                       errors := errs
                       data := some raw } }

/-- The `error` handler of the executor subscription: it propagates the error
to the operation's observers (modelled in the delivery queue below) and does
nothing else, leaving every field of the instance untouched. -/
def handleExecError (op : ObsOp) (_e : GraphQLError) : Except OpError ObsOp :=
  match op.execution with
  | none => .error .notApplicable
  | some _ => .ok op

/-- The `complete` handler of the executor subscription: it sets `loading` and
`executing` to false.  In this source it does not clear the `_execution`
handle. -/
def handleExecComplete (op : ObsOp) : Except OpError ObsOp :=
  match op.execution with
  | none => .error .notApplicable
  | some _ => .ok { op with state := { op.state with loading := false, executing := false } }

/-- The public `stopExecuting` method: a no-op when there is no execution,
otherwise unsubscribe, clear the handle, and reset the two flags. -/
def stopExecutingF (op : ObsOp) : ObsOp :=
  match op.execution with
  | none => op
  | some _ =>
    { op with
      execution := none
      state := { op.state with loading := false, executing := false } }

/-- The outcome of the `graph.read` call inside `maybeExecute`: either a read
result with its data and stale flag, or a thrown error carrying the
`_partialRead` marker.  The read is performed by the graph store, which is not
under `src/`, so its outcome is supplied by the environment. -/
inductive ReadOutcome where
  | ok (raw : DataId) (stale : Bool)
  | err (isPartialRead : Bool)
deriving DecidableEq

/-- The public `maybeExecute` method, mirroring the source exactly: precondition
check, defensive delegation when `_rootID` is null, state update plus watch
restart on a successful read, and — in the catch block — the source checks
`if (error._partialRead)` and then throws, calling `execute` otherwise. -/
def maybeExecuteF (op : ObsOp) (v : Option Variables) (read : ReadOutcome) : Except OpError ObsOp :=
  if op.execution.isSome then .error .executionRunning
  else
    let vars := v.getD op.state.vars
    match op.rootID with
    | none => executeF op (some vars)
    | some _ =>
      match read with
      | .ok raw stale =>
        watchF (stopWatchingF
          { op with state := { op.state with
                               vars := vars
                               canonical := false
                               stale := stale
                               data := some raw } })
      | .err isP =>
        if isP then .error (.rethrown isP)
        else executeF op (some vars)

/-- The `next` handler of the graph watcher registered in `_watch`: assert the
closed-over variables are still current, suppress the emission when it carries
the watcher's `initialData` and is not stale, and otherwise update the state. -/
def watchEmitF (op : ObsOp) (raw : DataId) (stale : Bool) : Except OpError ObsOp :=
  match op.watcher with
  | none => .error .notApplicable
  | some w =>
    if w.vars ≠ op.state.vars then .error .variablesChanged
    else if some raw = w.initialData ∧ stale = false then .ok op
    else .ok { op with state := { op.state with canonical := false, stale := stale, data := some raw } }

/-- The events that can reach an `ObservableOperation` instance: public method
calls, emissions of the executor observable, and emissions of the graph
watcher. -/
inductive Event where
  | execute (v : Option Variables)
  | execNext (errs : List GraphQLError) (raw : DataId)
  | execError (e : GraphQLError)
  | execComplete
  | stopExecuting
  | maybeExecute (v : Option Variables) (read : ReadOutcome)
  | watchEmit (raw : DataId) (stale : Bool)
deriving DecidableEq

/-- One step of the `ObservableOperation` machine: dispatch an event to the
method or handler that processes it. -/
def stepE (op : ObsOp) : Event → Except OpError ObsOp
  | .execute v => executeF op v
  | .execNext errs raw => handleExecNext op errs raw
  | .execError e => handleExecError op e
  | .execComplete => handleExecComplete op
  | .stopExecuting => .ok (stopExecutingF op)
  | .maybeExecute v read => maybeExecuteF op v read
  | .watchEmit raw stale => watchEmitF op raw stale

/-- Instances reachable from some construction by a sequence of successfully
handled events. -/
inductive Reachable : ObsOp → Prop where
  | init (kind : OperationKind) (v0 : Variables) (op : ObsOp) :
      construct kind v0 = .ok op → Reachable op
  | step (op op' : ObsOp) (e : Event) :
      Reachable op → stepE op e = .ok op' → Reachable op'

/-- The instance produced by constructing a query operation with initial
variables token 0: root at the query root, graph untouched, no execution, and
a watcher capturing the initial variables with no initial data. -/
def opQ0 : ObsOp :=
  { rootID := some .query
    graph := 0
    execution := none
    watcher := some { vars := 0, initialData := none }
    state := initialState 0 }

/-- A pending `setTimeout` callback of `ObservableOperation`: a state delivery
scheduled by `_updateState` (capturing the observer, the scheduled state and
the identity of the scheduled state object), a priming delivery scheduled by
`_onSubscribe`, or an error delivery scheduled by `_error`. -/
inductive Pending where
  | deliver (obs : Nat) (version : Nat) (st : OperationState)
  | prime (obs : Nat)
  | errDeliver (obs : Nat) (e : GraphQLError)
deriving DecidableEq

/-- The observer-facing half of an `ObservableOperation` instance: the current
state value together with a version number standing for the identity of the
current state object (`_updateState` allocates a fresh object on every call,
so the reference test `this._state === nextState` is version equality), the
registered observers in insertion order, and the FIFO queue of pending
`setTimeout` callbacks. -/
structure DOp where
  version : Nat
  state : OperationState
  observers : List Nat
  queue : List Pending
deriving DecidableEq

/-- The private `_updateState` method: merge the partial state into the
current state (every call site passes a record update, modelled as a function
on states), install the merged state under a fresh identity, and schedule one
deferred delivery per registered observer capturing the new state and its
identity. -/
def updateStateD (d : DOp) (f : OperationState → OperationState) : DOp :=
  { d with
    version := d.version + 1
    state := f d.state
    queue := d.queue ++ d.observers.map (fun o => Pending.deliver o (d.version + 1) (f d.state)) }

/-- The private `_onSubscribe` method: schedule one priming delivery — which
reads `this._state` only when it fires — and register the observer. -/
def subscribeD (d : DOp) (o : Nat) : DOp :=
  { d with
    queue := d.queue ++ [Pending.prime o]
    observers := d.observers ++ [o] }

/-- The private `_error` method: schedule one error delivery per registered
observer; the state, its identity and the observer list are untouched. -/
def errorD (d : DOp) (e : GraphQLError) : DOp :=
  { d with queue := d.queue ++ d.observers.map (fun o => Pending.errDeliver o e) }

/-- An emission actually handed to an observer when a pending callback
fires. -/
inductive Emit where
  | next (obs : Nat) (version : Nat) (st : OperationState)
  | err (obs : Nat) (e : GraphQLError)
deriving DecidableEq

/-- The observer a delivered emission is addressed to. -/
def Emit.obs : Emit → Nat
  | .next o _ _ => o
  | .err o _ => o

/-- Firing one pending callback against the current state: a scheduled state
delivery fires only if the state object it captured is still the current one
(the source's guard `this._state === nextState`); a priming delivery always
fires and hands over the state current at firing time; an error delivery
always fires. -/
def firePending (version : Nat) (state : OperationState) : Pending → Option Emit
  | .deliver o v st => if v = version then some (.next o v st) else none
  | .prime o => some (.next o version state)
  | .errDeliver o e => some (.err o e)

/-- Running every pending callback of the queue in FIFO order with no further
updates in between: the emissions the observers receive during that turn. -/
def drain (d : DOp) : List Emit :=
  d.queue.filterMap (firePending d.version d.state)

/-- Emissions addressed to one observer, in delivery order. -/
def emissionsTo (o : Nat) (l : List Emit) : List Emit :=
  l.filter (fun e => Emit.obs e == o)

/-- A well-formed queue: every scheduled state delivery refers to a past or
current version, and a delivery for the current version carries the current
state.  Every queue the machine builds satisfies this. -/
def PendingOK (d : DOp) : Prop :=
  ∀ p ∈ d.queue, ∀ o v st, p = Pending.deliver o v st →
    v ≤ d.version ∧ (v = d.version → st = d.state)

/-- A concrete instance used by witnesses: a query operation with an execution
in flight under variables token 5 and an active watcher whose initial data is
token 9. -/
def opW5 : ObsOp :=
  { rootID := some .query
    graph := 3
    execution := some 5
    watcher := some { vars := 5, initialData := some 9 }
    state := { loading := true, executing := true, vars := 5, canonical := false,
               stale := false, errors := [], data := some 9 } }

/-- A concrete delivery-model instance used by witnesses: one registered
observer (token 7) and an empty queue. -/
def dW : DOp :=
  { version := 0, state := initialState 0, observers := [7], queue := [] }

/-- A concrete partial state update used by witnesses: the record update
performed by `execute` before invoking the executor. -/
def fW1 : OperationState → OperationState :=
  fun s => { s with loading := true, executing := true }

/-- A concrete partial state update used by witnesses: the record update
performed by the `complete` handler. -/
def fW2 : OperationState → OperationState :=
  fun s => { s with loading := false, executing := false }

end ApolloClient
namespace ApolloClient

/-- Helper: a successful `_watch` changes at most the watcher handle. -/
theorem watchF_fields (op op' : ObsOp) (h : watchF op = .ok op') :
    op'.state = op.state ∧ op'.graph = op.graph ∧ op'.execution = op.execution ∧
    op'.rootID = op.rootID := by
  unfold watchF at h
  split at h
  · cases h
    exact ⟨rfl, rfl, rfl, rfl⟩
  · split at h
    · simp at h
    · cases h
      exact ⟨rfl, rfl, rfl, rfl⟩

/-- Helper: when no watcher is registered, `_watch` cannot throw, and it
leaves the state untouched. -/
theorem watchF_ok_of_none (op : ObsOp) (h : op.watcher = none) :
    ∃ op', watchF op = .ok op' ∧ op'.state = op.state := by
  unfold watchF
  cases hr : op.rootID with
  | none => exact ⟨op, rfl, rfl⟩
  | some k =>
    rw [h]
    exact ⟨_, rfl, rfl⟩

/-- Helper: a successful `execute` leaves the instance with `executing`
set. -/
theorem executeF_ok_executing (op op' : ObsOp) (v : Option Variables)
    (h : executeF op v = .ok op') : op'.state.executing = true := by
  unfold executeF at h
  split at h
  · simp at h
  · simp only [Except.ok.injEq] at h
    subst h
    rfl

/-- Helper: a successfully handled executor result leaves `loading` unset. -/
theorem handleExecNext_ok_loading (op op' : ObsOp) (errs : List GraphQLError) (raw : DataId)
    (h : handleExecNext op errs raw = .ok op') : op'.state.loading = false := by
  unfold handleExecNext at h
  split at h
  · simp at h
  · split at h
    · rw [(watchF_fields _ _ h).1]
    · simp only [Except.ok.injEq] at h
      subst h
      rfl

/-- Helper: the executor error handler leaves the instance untouched. -/
theorem handleExecError_ok (op op' : ObsOp) (e : GraphQLError)
    (h : handleExecError op e = .ok op') : op' = op := by
  unfold handleExecError at h
  split at h
  · simp at h
  · simp only [Except.ok.injEq] at h
    exact h.symm

/-- Helper: a successfully handled executor completion clears both flags. -/
theorem handleExecComplete_ok_flags (op op' : ObsOp)
    (h : handleExecComplete op = .ok op') :
    op'.state.loading = false ∧ op'.state.executing = false := by
  unfold handleExecComplete at h
  split at h
  · simp at h
  · simp only [Except.ok.injEq] at h
    subst h
    exact ⟨rfl, rfl⟩

/-- Helper: `stopExecuting` either leaves the instance untouched or clears
both flags. -/
theorem stopExecutingF_cases (op : ObsOp) :
    stopExecutingF op = op ∨
    ((stopExecutingF op).state.loading = false ∧ (stopExecutingF op).state.executing = false) := by
  unfold stopExecutingF
  split
  · exact Or.inl rfl
  · exact Or.inr ⟨rfl, rfl⟩

/-- Helper: a successful `maybeExecute` either delegates to `execute`
(leaving `executing` set) or leaves both flags as they were. -/
theorem maybeExecuteF_ok_cases (op op' : ObsOp) (v : Option Variables) (read : ReadOutcome)
    (h : maybeExecuteF op v read = .ok op') :
    op'.state.executing = true ∨
    (op'.state.loading = op.state.loading ∧ op'.state.executing = op.state.executing) := by
  unfold maybeExecuteF at h
  split at h
  · simp at h
  · split at h
    · exact Or.inl (executeF_ok_executing _ _ _ h)
    · split at h
      · right
        rw [(watchF_fields _ _ h).1]
        exact ⟨rfl, rfl⟩
      · split at h
        · simp at h
        · exact Or.inl (executeF_ok_executing _ _ _ h)

/-- Helper: a successfully handled watch emission leaves both flags as they
were. -/
theorem watchEmitF_ok_flags (op op' : ObsOp) (raw : DataId) (stale : Bool)
    (h : watchEmitF op raw stale = .ok op') :
    op'.state.loading = op.state.loading ∧ op'.state.executing = op.state.executing := by
  unfold watchEmitF at h
  split at h
  · simp at h
  · split at h
    · simp at h
    · split at h
      · simp only [Except.ok.injEq] at h
        subst h
        exact ⟨rfl, rfl⟩
      · simp only [Except.ok.injEq] at h
        subst h
        exact ⟨rfl, rfl⟩

/-- Helper: every successful step preserves the implication from `loading` to
`executing`. -/
theorem stepE_preserves_load_exec (op op' : ObsOp) (e : Event)
    (h : op.state.loading = true → op.state.executing = true)
    (hs : stepE op e = .ok op') :
    op'.state.loading = true → op'.state.executing = true := by
  cases e with
  | execute v =>
    intro _
    exact executeF_ok_executing op op' v hs
  | execNext errs raw =>
    intro hl
    rw [handleExecNext_ok_loading op op' errs raw hs] at hl
    simp at hl
  | execError e2 =>
    rw [handleExecError_ok op op' e2 hs]
    exact h
  | execComplete =>
    intro hl
    rw [(handleExecComplete_ok_flags op op' hs).1] at hl
    simp at hl
  | stopExecuting =>
    have hx : stopExecutingF op = op' := Except.ok.inj hs
    rcases stopExecutingF_cases op with hc | hc
    · rw [← hx, hc]
      exact h
    · rw [← hx]
      intro hl
      rw [hc.1] at hl
      simp at hl
  | maybeExecute v read =>
    rcases maybeExecuteF_ok_cases op op' v read hs with hc | hc
    · intro _
      exact hc
    · rw [hc.1, hc.2]
      exact h
  | watchEmit raw stale =>
    have hc := watchEmitF_ok_flags op op' raw stale hs
    rw [hc.1, hc.2]
    exact h

/-- Claim C6: in every reachable instance of the `ObservableOperation`
machine, `executing = false` implies `loading = false`: the constructor starts
with both flags clear, `execute` sets both, the result and error handlers
never set `loading` without `executing`, and `complete` and `stopExecuting`
clear both together. -/
theorem executing_false_implies_loading_false (op : ObsOp) (h : Reachable op)
    (he : op.state.executing = false) : op.state.loading = false := by
  have key : ∀ op2, Reachable op2 → op2.state.loading = true → op2.state.executing = true := by
    intro op2 h2
    induction h2 with
    | init kind v0 op0 hc =>
      unfold construct at hc
      rw [(watchF_fields _ _ hc).1]
      intro hl
      simp [initialState] at hl
    | step op1 op3 e hr hs ih =>
      exact stepE_preserves_load_exec op1 op3 e ih hs
  rcases Bool.eq_false_or_eq_true op.state.loading with h1 | h1
  · rw [key op h h1] at he
    simp at he
  · exact h1

/-- Witness for C6: the freshly constructed query instance is reachable, is
not executing, and indeed is not loading. -/
theorem executing_false_implies_loading_false_witness :
    opQ0.state.executing = false ∧ opQ0.state.loading = false :=
  ⟨rfl, executing_false_implies_loading_false opQ0 (Reachable.init .query 0 opQ0 rfl) rfl⟩

/-- Claim C1, code evaluated at the failing inputs: on a freshly constructed
query instance, when the graph read inside `maybeExecute` throws an error
whose `_partialRead` property is true, the method re-throws that error, and
when the read throws an error whose `_partialRead` property is false, the
method delegates to `execute` (the instance ends up with an execution in
flight and both flags set) — the reverse of the claimed behaviour. -/
theorem maybeExecute_inverted_catch :
    construct .query 0 = .ok opQ0 ∧
    stepE opQ0 (.maybeExecute (some 1) (.err true)) = .error (.rethrown true) ∧
    (stepE opQ0 (.maybeExecute (some 1) (.err false))).map
      (fun o => (o.execution, o.state.executing, o.state.loading)) =
      .ok (some 1, true, true) :=
  ⟨rfl, rfl, rfl⟩

/-- Claim C2, code evaluated at the failing input: constructing an
`ObservableOperation` for a mutation does not throw — it returns a normal
instance whose `_rootID` is null and which watches nothing — while query and
subscription constructions succeed as well. -/
theorem construct_mutation_does_not_throw :
    construct .mutation 0 =
      .ok { rootID := none, graph := 0, execution := none, watcher := none,
            state := initialState 0 } ∧
    construct .query 0 = .ok opQ0 ∧
    construct .subscription 0 =
      .ok { rootID := some .subscription, graph := 0, execution := none,
            watcher := some { vars := 0, initialData := none },
            state := initialState 0 } :=
  ⟨rfl, rfl, rfl⟩

/-- Claim C3, code evaluated at the failing input: after `execute` on a fresh
query instance and a `complete` signal from the executor, the state shows
`executing = false` but the execution handle is still set, so a further
`execute` call throws the in-flight precondition error even though no
execution is running. -/
theorem execute_after_complete_still_blocked :
    (((construct .query 0).bind (fun o => stepE o (.execute none))).bind
        (fun o => stepE o .execComplete)) = .ok { opQ0 with execution := some 0 } ∧
    ({ opQ0 with execution := some 0 } : ObsOp).state.executing = false ∧
    stepE { opQ0 with execution := some 0 } (.execute none) = .error .executionRunning :=
  ⟨rfl, rfl, rfl⟩

/-- Counterexample to claim C4 as stated: on a freshly constructed query
instance with initial variables token 0, calling `execute` with variables
token 1 emits a loading state whose `variables` are still token 0, not the
token 1 passed to the most recent `execute` call. -/
theorem loading_state_keeps_old_variables :
    construct .query 0 = .ok opQ0 ∧
    (stepE opQ0 (.execute (some 1))).map (fun o => (o.state.loading, o.state.vars)) =
      .ok (true, 0) ∧
    (0 : Variables) ≠ 1 :=
  ⟨rfl, rfl, by decide⟩

/-- Helper: whatever outcome the executor result handler takes, the state it
installs carries the variables closed over by the `execute` call. -/
theorem handleExecNext_ok_vars (op op' : ObsOp) (vars : Variables)
    (errs : List GraphQLError) (raw : DataId)
    (hex : op.execution = some vars)
    (h : handleExecNext op errs raw = .ok op') : op'.state.vars = vars := by
  unfold handleExecNext at h
  split at h
  · simp at h
  · rename_i vars2 heq
    rw [hex] at heq
    injection heq with heq2
    subst heq2
    split at h
    · rw [(watchF_fields _ _ h).1]
    · simp only [Except.ok.injEq] at h
      subst h
      rfl

/-- Claim C4 as amended: the `variables` field is updated when a result of
`execute(v)` is handled, not when `execute(v)` is called — the loading state
installed by `execute(v)` still carries the previous variables, and handling
the first executor result (with or without errors) sets `variables` to `v`. -/
theorem variables_updated_on_result (op op1 op2 : ObsOp) (v : Variables)
    (errs : List GraphQLError) (raw : DataId)
    (h : op.execution = none)
    (h1 : executeF op (some v) = .ok op1)
    (h2 : stepE op1 (.execNext errs raw) = .ok op2) :
    op1.state.loading = true ∧ op1.state.executing = true ∧
    op1.state.vars = op.state.vars ∧ op2.state.vars = v := by
  have hnone : op.execution.isSome = false := by
    rw [h]
    rfl
  unfold executeF at h1
  rw [hnone] at h1
  simp only [Bool.false_eq_true, if_false, Except.ok.injEq] at h1
  subst h1
  exact ⟨rfl, rfl, rfl,
    handleExecNext_ok_vars
      { op with
        execution := some ((some v).getD op.state.vars)
        state := { op.state with loading := true, executing := true } }
      op2 v errs raw rfl h2⟩

/-- Witness for the amended C4: on the fresh query instance, `execute` with
token 1 keeps variables at token 0 in the loading state, and handling the
executor result sets them to token 1. -/
theorem variables_updated_on_result_witness :
    opQ0.execution = none ∧
    (stepE { opQ0 with
             execution := some 1
             state := { opQ0.state with loading := true, executing := true } }
        (.execNext [] 4)).isOk = true ∧
    ({ opQ0 with
       execution := some 1
       state := { opQ0.state with loading := true, executing := true } } : ObsOp).state.vars = 0 := by
  have h2 : stepE { opQ0 with
      execution := some 1
      state := { opQ0.state with loading := true, executing := true } } (.execNext [] 4) =
      .ok { rootID := some .query, graph := 1, execution := some 1,
            watcher := some { vars := 1, initialData := some 1 },
            state := { loading := false, executing := true, vars := 1, canonical := true,
                       stale := false, errors := [], data := some 1 } } := by rfl
  have h := variables_updated_on_result opQ0 _ _ 1 [] 4 rfl rfl h2
  exact ⟨rfl, by rw [h2]; rfl, h.2.2.1⟩

/-- Claim C5: handling an executor result whose errors array is non-empty
performs no graph write (the graph snapshot token is unchanged), leaves the
watch stopped (the watcher handle is cleared by `_stopWatching` and not
re-registered), and sets the state to loading cleared, the execute call's
variables, canonical, not stale, the result's errors and the result's raw
data, leaving `executing` as it was. -/
theorem errored_result_quarantine (op : ObsOp) (vars : Variables)
    (errs : List GraphQLError) (raw : DataId)
    (hexec : op.execution = some vars) (herrs : errs ≠ []) :
    stepE op (.execNext errs raw) =
      .ok { op with
            watcher := none
            state := { op.state with
                       loading := false
                       vars := vars
                       canonical := true
                       stale := false
                       errors := errs
                       data := some raw } } := by
  show handleExecNext op errs raw = _
  unfold handleExecNext
  simp only [hexec]
  simp only [herrs, if_false, stopWatchingF]
  rw [hexec]

/-- Witness for C5: on the concrete executing instance, an executor result
with errors token list `[7]` and raw data token 4 leaves the graph token and
`executing` untouched, clears the watcher, and installs the errored state. -/
theorem errored_result_quarantine_witness :
    opW5.execution = some 5 ∧ ([7] : List GraphQLError) ≠ [] ∧
    stepE opW5 (.execNext [7] 4) =
      .ok { opW5 with
            watcher := none
            state := { opW5.state with
                       loading := false
                       vars := 5
                       canonical := true
                       stale := false
                       errors := [7]
                       data := some 4 } } :=
  ⟨rfl, by decide, errored_result_quarantine opW5 5 [7] 4 rfl (by decide)⟩

/-- Claim C8: an emission delivered by the active graph watch whose data is
reference-equal to the watcher's `initialData` and whose stale flag is false
is suppressed (the instance is unchanged); any other emission updates the
state to non-canonical with the emission's stale flag and data, provided the
watcher's closed-over variables are still the current ones. -/
theorem watch_emission_handling (op : ObsOp) (w : Watcher) (raw : DataId) (stale : Bool)
    (hw : op.watcher = some w) (hv : w.vars = op.state.vars) :
    stepE op (.watchEmit raw stale) =
      .ok (if some raw = w.initialData ∧ stale = false then op
           else { op with
                  state := { op.state with
                             canonical := false
                             stale := stale
                             data := some raw } }) := by
  show watchEmitF op raw stale = _
  unfold watchEmitF
  simp only [hw]
  simp only [hv, ne_eq, not_true_eq_false, if_false]
  split <;> rfl

/-- Witness for C8: on the concrete instance whose watcher holds initial data
token 9, a non-stale emission of token 9 is suppressed, leaving the instance
unchanged. -/
theorem watch_emission_handling_witness :
    opW5.watcher = some { vars := 5, initialData := some 9 } ∧
    ({ vars := 5, initialData := some 9 } : Watcher).vars = opW5.state.vars ∧
    stepE opW5 (.watchEmit 9 false) = .ok opW5 := by
  refine ⟨rfl, rfl, ?_⟩
  have h := watch_emission_handling opW5 { vars := 5, initialData := some 9 } 9 false rfl rfl
  simpa using h

/-- Helper: `_updateState` preserves queue well-formedness — deliveries it
scheduled earlier now refer to a strictly older version, and the fresh ones
carry the new current state under the new current version. -/
theorem pendingOK_updateStateD (d : DOp) (f : OperationState → OperationState)
    (h : PendingOK d) : PendingOK (updateStateD d f) := by
  intro p hp o v st hpt
  have hver : (updateStateD d f).version = d.version + 1 := rfl
  have hst : (updateStateD d f).state = f d.state := rfl
  rw [hver, hst]
  simp only [updateStateD, List.mem_append, List.mem_map] at hp
  rcases hp with hp | ⟨o2, ho2, hpe⟩
  · rcases h p hp o v st hpt with ⟨h1, _⟩
    constructor
    · exact Nat.le_succ_of_le h1
    · intro hv
      exfalso
      omega
  · rw [hpt] at hpe
    injection hpe with e1 e2 e3
    constructor
    · omega
    · intro _
      exact e3.symm

/-- Helper: queue well-formedness survives any synchronous run of
`_updateState` calls. -/
theorem pendingOK_foldl (fs : List (OperationState → OperationState)) (d : DOp)
    (h : PendingOK d) : PendingOK (fs.foldl updateStateD d) := by
  induction fs generalizing d with
  | nil => exact h
  | cons f t ih => exact ih _ (pendingOK_updateStateD d f h)

/-- Helper: a synchronous run of `_updateState` calls composes the merges in
order. -/
theorem foldl_updateStateD_state (fs : List (OperationState → OperationState)) (d : DOp) :
    (fs.foldl updateStateD d).state = fs.foldl (fun s f => f s) d.state := by
  induction fs generalizing d with
  | nil => rfl
  | cons f t ih => exact ih (updateStateD d f)

/-- Claim C7: state transitions are delivered through `_updateState`, which
merges each partial update into the current state and schedules per-observer
deferred deliveries that fire only if the scheduled state object is still the
current one; consequently, after any synchronous sequence of `_updateState`
calls in one turn, every state emission the observers receive when the
deferred callbacks run carries the final merged state — never a superseded
intermediate one. -/
theorem updateState_collapse (d : DOp) (fs : List (OperationState → OperationState))
    (hq : PendingOK d) (o v : Nat) (st : OperationState)
    (hmem : Emit.next o v st ∈ drain (fs.foldl updateStateD d)) :
    st = (fs.foldl updateStateD d).state ∧
    (fs.foldl updateStateD d).state = fs.foldl (fun s f => f s) d.state := by
  refine ⟨?_, foldl_updateStateD_state fs d⟩
  have hOK := pendingOK_foldl fs d hq
  unfold drain at hmem
  rw [List.mem_filterMap] at hmem
  obtain ⟨p, hp, hfire⟩ := hmem
  cases p with
  | deliver o2 v2 st2 =>
    simp only [firePending] at hfire
    split at hfire
    · rename_i hv2
      simp only [Option.some.injEq, Emit.next.injEq] at hfire
      rcases hOK _ hp o2 v2 st2 rfl with ⟨_, h2⟩
      rw [← hfire.2.2]
      exact h2 hv2
    · simp at hfire
  | prime o2 =>
    simp only [firePending, Option.some.injEq, Emit.next.injEq] at hfire
    exact hfire.2.2.symm
  | errDeliver o2 e2 =>
    simp [firePending] at hfire

/-- Witness for C7: starting from the concrete one-observer instance with an
empty queue, running the `execute` update followed by the `complete` update
and then draining delivers only the final state. -/
theorem updateState_collapse_witness :
    PendingOK dW ∧
    Emit.next 7 2 (fW2 (fW1 (initialState 0))) ∈ drain ([fW1, fW2].foldl updateStateD dW) ∧
    fW2 (fW1 (initialState 0)) = ([fW1, fW2].foldl updateStateD dW).state := by
  have hOK : PendingOK dW := by
    intro p hp o v st hpt
    simp [dW] at hp
  have hmem : Emit.next 7 2 (fW2 (fW1 (initialState 0))) ∈
      drain ([fW1, fW2].foldl updateStateD dW) := by
    simp [dW, fW1, fW2, drain, updateStateD, firePending, initialState]
  exact ⟨hOK, hmem,
    (updateState_collapse dW [fW1, fW2] hOK 7 2 (fW2 (fW1 (initialState 0))) hmem).1⟩

/-- Claim C9: an executor `error(e)` leaves the machine state completely
unchanged (state fields, execution handle, watcher, graph), and on the
delivery side `_error` schedules an error delivery for every registered
observer without touching the state, its identity, or the observer list, so
the error is delivered to each observer and the same observers still receive
the state emission of a subsequent `_updateState`. -/
theorem executor_error_effects (op : ObsOp) (vv : Variables) (e : GraphQLError)
    (h : op.execution = some vv) (d : DOp) (f : OperationState → OperationState)
    (o : Nat) (ho : o ∈ d.observers) :
    stepE op (.execError e) = .ok op ∧
    (errorD d e).version = d.version ∧
    (errorD d e).state = d.state ∧
    (errorD d e).observers = d.observers ∧
    Emit.err o e ∈ drain (errorD d e) ∧
    Emit.next o (d.version + 1) (f d.state) ∈ drain (updateStateD (errorD d e) f) := by
  refine ⟨?_, rfl, rfl, rfl, ?_, ?_⟩
  · show handleExecError op e = _
    unfold handleExecError
    simp only [h]
  · unfold drain
    rw [List.mem_filterMap]
    refine ⟨Pending.errDeliver o e, ?_, rfl⟩
    simp only [errorD, List.mem_append, List.mem_map]
    exact Or.inr ⟨o, ho, rfl⟩
  · unfold drain
    rw [List.mem_filterMap]
    refine ⟨Pending.deliver o ((errorD d e).version + 1) (f (errorD d e).state), ?_, ?_⟩
    · simp only [updateStateD, List.mem_append, List.mem_map]
      exact Or.inr ⟨o, ho, rfl⟩
    · simp [updateStateD, firePending, errorD]

/-- Witness for C9: on the concrete executing instance and the concrete
one-observer delivery instance, the executor error is a complete no-op on the
machine, observer 7 receives the error, and observer 7 still receives the
state emission of a following update. -/
theorem executor_error_effects_witness :
    opW5.execution = some 5 ∧ (7 : Nat) ∈ dW.observers ∧
    stepE opW5 (.execError 3) = .ok opW5 ∧
    Emit.err 7 3 ∈ drain (errorD dW 3) ∧
    Emit.next 7 (dW.version + 1) (fW1 dW.state) ∈ drain (updateStateD (errorD dW 3) fW1) := by
  have h := executor_error_effects opW5 5 3 rfl dW fW1 7 (by simp [dW])
  exact ⟨rfl, by simp [dW], h.1, h.2.2.2.2.1, h.2.2.2.2.2⟩

/-- Helper: emissions addressed to an observer outside a list are absent from
the deliveries fanned out to that list. -/
theorem filter_obs_map_not_mem (o v : Nat) (st : OperationState) (l : List Nat)
    (h : o ∉ l) :
    List.filter (fun e => Emit.obs e == o) (l.map (fun x => Emit.next x v st)) = [] := by
  induction l with
  | nil => rfl
  | cons a t ih =>
    rw [List.mem_cons, not_or] at h
    have ha : (a == o) = false := by
      rw [beq_eq_false_iff_ne]
      intro hao
      exact h.1 hao.symm
    simp only [List.map_cons, List.filter_cons, Emit.obs, ha]
    exact ih h.2

/-- Helper: deliveries scheduled under the current version all fire, handing
over the scheduled state. -/
theorem filterMap_deliver_fires (v : Nat) (st : OperationState) (l : List Nat) :
    List.filterMap (firePending v st ∘ fun o2 => Pending.deliver o2 v st) l =
      l.map (fun o2 => Emit.next o2 v st) := by
  induction l with
  | nil => rfl
  | cons a t ih =>
    simp only [List.filterMap_cons, Function.comp_apply, firePending, if_true, List.map_cons, ih]

/-- Claim C10: `subscribe` schedules exactly one deferred priming delivery,
and when an `_updateState` runs synchronously before the pending callbacks
fire, the priming delivery hands the observer the updated state (the state
current at firing time, not the one captured at subscribe time) and the
update's own delivery then hands the same state object to the observer a
second time. -/
theorem subscribe_priming (d : DOp) (o : Nat) (f : OperationState → OperationState)
    (hq : d.queue = []) (ho : o ∉ d.observers) :
    (subscribeD d o).queue = d.queue ++ [Pending.prime o] ∧
    emissionsTo o (drain (updateStateD (subscribeD d o) f)) =
      [Emit.next o (d.version + 1) (f d.state), Emit.next o (d.version + 1) (f d.state)] := by
  refine ⟨rfl, ?_⟩
  have hdrain : drain (updateStateD (subscribeD d o) f) =
      Emit.next o (d.version + 1) (f d.state) ::
        (d.observers.map (fun o2 => Emit.next o2 (d.version + 1) (f d.state)) ++
          [Emit.next o (d.version + 1) (f d.state)]) := by
    simp only [drain, updateStateD, subscribeD, hq, List.nil_append, List.map_append,
      List.map_cons, List.map_nil, List.filterMap_cons, List.filterMap_append,
      List.filterMap_map, List.filterMap_nil, firePending, if_true,
      filterMap_deliver_fires, List.singleton_append]
  rw [hdrain]
  simp only [emissionsTo, List.filter_cons, List.filter_append]
  rw [filter_obs_map_not_mem o (d.version + 1) (f d.state) d.observers ho]
  simp [Emit.obs]

/-- Witness for C10: on the concrete one-observer instance, a freshly
subscribed observer (token 8) followed by one synchronous update receives the
updated state twice — once from the priming delivery and once from the
update's own delivery. -/
theorem subscribe_priming_witness :
    dW.queue = [] ∧ (8 : Nat) ∉ dW.observers ∧
    emissionsTo 8 (drain (updateStateD (subscribeD dW 8) fW1)) =
      [Emit.next 8 (dW.version + 1) (fW1 dW.state),
       Emit.next 8 (dW.version + 1) (fW1 dW.state)] := by
  have h := subscribe_priming dW 8 fW1 rfl (by simp [dW])
  exact ⟨rfl, by simp [dW], h.2⟩

end ApolloClient
